import Mathlib

/-!
Verification development for the `VRBBoxHead` detection head
(`mmdet/models/roi_heads/bbox_heads/vr_bbox_head.py`).

Tensors are shallowly embedded as lists: a 2-D tensor of rationals is a
`Mat := List (List ℚ)` in row-major order, a 1-D tensor is a `List ℚ`
(or `List ℤ` for label tensors).  External collaborators (the bbox/bin/ratio
coders, `bbox2type`, softmax, grid-sample, the loss callables and the
accuracy metric) are passed in as function parameters, exactly as the head
receives them as injected modules.  Fallible torch operations (`view`,
`gather`, boolean masked assignment) return `Option`, with `none` standing
for the runtime error torch raises.

The real-valued parts of the forward pass (logistic squashing) are embedded
over `ℝ` in a separate section.
-/

namespace VR

abbrev Vec := List ℚ

abbrev Mat := List (List ℚ)

/-- Number of elements of a 2-D tensor (`Tensor.numel`). -/
def numel (m : Mat) : Nat := (m.map List.length).sum

/-- `Tensor.size(1)` of a rectangular 2-D tensor, read off the first row. -/
def size1 (m : Mat) : Nat := (m.headD []).length

/-- Row-major flattening of a 2-D tensor. -/
def flat (m : Mat) : Vec := m.flatten

/-- An all-zero matrix, `Tensor.new_zeros(n, k)`. -/
def zerosM (n k : Nat) : Mat := List.replicate n (List.replicate k (0:ℚ))

/-- Sum of all entries, `Tensor.sum()`. -/
def matSum (m : Mat) : ℚ := (m.map List.sum).sum

def chunksOfAux (k : Nat) : Nat → List ℚ → List (List ℚ)
  | 0, _ => []
  | _, [] => []
  | fuel+1, l => l.take k :: chunksOfAux k fuel (l.drop k)

/-- `Tensor.view(-1, k)`: reshape to `k` columns; errors (`none`) when the
element count is not divisible by `k`. -/
def view (m : Mat) (k : Nat) : Option Mat :=
  if k = 0 then none
  else if numel m % k ≠ 0 then none
  else some (chunksOfAux k (numel m) (flat m))

/-- `Tensor.view(r, -1)`: reshape to `r` rows; errors (`none`) when the
element count is not divisible by `r`. -/
def viewRows (m : Mat) (r : Nat) : Option Mat :=
  if r = 0 then none
  else if numel m % r ≠ 0 then none
  else some (chunksOfAux (numel m / r) (numel m) (flat m))

/-- `torch.gather(input, 1, index)`: `out[i][j] = input[i][index[i][j]]`.
Requires `index.size(0) <= input.size(0)` and every index in range;
otherwise torch raises (`none`). -/
def gather (m : Mat) (idx : List (List Nat)) : Option Mat :=
  if m.length < idx.length then none
  else (m.zip idx).mapM fun ri => ri.2.mapM fun j => ri.1.get? j

/-- Rows of `m` selected by a boolean mask (`m[mask]`). -/
def maskRows (m : Mat) (mask : List Bool) : Mat :=
  ((m.zip mask).filter fun rb => rb.2).map fun rb => rb.1

def maskedAssignAux : Mat → List Bool → Mat → Mat
  | [], _, _ => []
  | r :: rs, [], v => r :: maskedAssignAux rs [] v
  | r :: rs, b :: bs, v =>
    if b then v.headD r :: maskedAssignAux rs bs v.tail
    else r :: maskedAssignAux rs bs v

/-- Boolean masked assignment `m[mask] = v` for a row mask.  torch
broadcasts the value against the `(k, cols)` indexing result, where `k` is
the number of selected rows: the assignment succeeds only when `v` has
exactly `k` rows or a single (broadcast) row; any other row count raises
a shape-mismatch error (`none`). -/
def maskedAssign (m : Mat) (mask : List Bool) (v : Mat) : Option Mat :=
  if mask.length ≠ m.length then none
  else
    let k := (mask.filter id).length
    if v.length = k then some (maskedAssignAux m mask v)
    else if v.length = 1 then
      some (maskedAssignAux m mask (List.replicate k (v.headD [])))
    else none

/-- Modelled from the spec: `hbb2poly` (imported from `mmdet.core`, not in
`src/`) turns an axis-aligned box `[x1, y1, x2, y2]` into the polygon of its
four corners — the "hbb-to-poly" degenerate case of §4.4 step 5 in which
"the polygon is the axis-aligned box's corners". -/
def hbb2poly (b : Vec) : Vec :=
  match b with
  | [x1, y1, x2, y2] => [x1, y1, x2, y1, x2, y2, x1, y2]
  | _ => []

/-- `hbb2poly` applied row-wise to a batch of boxes. -/
def hbb2polyM (m : Mat) : Mat := m.map hbb2poly

/-- Slice assignment `orig[:len(upd)] = upd` (torch requires
`len(upd) = len(orig[:len(upd)])`, which the call sites guarantee). -/
def assignPrefixL {α : Type} (orig upd : List α) : List α :=
  upd ++ orig.drop upd.length

/-- Slice assignment `orig[-len(upd):] = upd`. -/
def assignSuffixL {α : Type} (orig upd : List α) : List α :=
  orig.take (orig.length - upd.length) ++ upd

/-- The ten supervision tensors produced by target assignment. -/
@[ext]
structure Targets where
  labels : List ℤ
  labelWeights : Vec
  bboxTargets : Mat
  bboxWeights : Mat
  binClsTargets : Mat
  binClsWeights : Mat
  binOffsetTargets : Mat
  binOffsetWeights : Mat
  ratioTargets : Mat
  ratioWeights : Mat
  deriving DecidableEq, Repr

/-- `VRBBoxHead._get_target_single`: per-image target assignment.  The
coders and `bbox2type` are external collaborators passed as functions:
`bboxEncode` is `self.bbox_coder.encode`, `binEncode` is
`self.bin_coder.encode` (returning targets and weights for bin-cls and
bin-offset), `ratioEncode` is `self.ratio_coder.encode`, and `hbbOf` /
`polyOf` are `bbox2type(·, 'hbb')` / `bbox2type(·, 'poly')`. -/
def getTargetSingle (numClasses numBins : Nat) (cfgPosWeight : ℚ)
    (bboxEncode : Mat → Mat → Mat) (hbbOf polyOf : Mat → Mat)
    (binEncode : Mat → Mat × Mat × Mat × Mat) (ratioEncode : Mat → Mat)
    (posBboxes negBboxes posGtBboxes : Mat) (posGtLabels : List ℤ) :
    Targets :=
  let numPos := posBboxes.length
  let numNeg := negBboxes.length
  let numSamples := numPos + numNeg
  let labels := List.replicate numSamples (numClasses : ℤ)
  let labelWeights := List.replicate numSamples (0:ℚ)
  let bboxTargets := zerosM numSamples 4
  let bboxWeights := zerosM numSamples 4
  let binClsTargets := zerosM numSamples (4*numBins)
  let binClsWeights := zerosM numSamples (4*numBins)
  let binOffsetTargets := zerosM numSamples 4
  let binOffsetWeights := zerosM numSamples 4
  let ratioTargets := zerosM numSamples 1
  let ratioWeights := zerosM numSamples 1
  let t :=
    if 0 < numPos then
      let posWeight := if cfgPosWeight ≤ 0 then (1:ℚ) else cfgPosWeight
      let posBboxTargets := bboxEncode posBboxes (hbbOf posGtBboxes)
      let be := binEncode (polyOf posGtBboxes)
      let posRatioTargets := ratioEncode (polyOf posGtBboxes)
      { labels := assignPrefixL labels posGtLabels
        labelWeights :=
          assignPrefixL labelWeights (List.replicate numPos posWeight)
        bboxTargets := assignPrefixL bboxTargets posBboxTargets
        bboxWeights :=
          assignPrefixL bboxWeights
            (List.replicate numPos (List.replicate 4 (1:ℚ)))
        binClsTargets := assignPrefixL binClsTargets be.1
        binClsWeights := assignPrefixL binClsWeights be.2.1
        binOffsetTargets := assignPrefixL binOffsetTargets be.2.2.1
        binOffsetWeights := assignPrefixL binOffsetWeights be.2.2.2
        ratioTargets := assignPrefixL ratioTargets posRatioTargets
        ratioWeights :=
          assignPrefixL ratioWeights (List.replicate numPos [(1:ℚ)]) }
    else
      { labels, labelWeights, bboxTargets, bboxWeights, binClsTargets,
        binClsWeights, binOffsetTargets, binOffsetWeights, ratioTargets,
        ratioWeights }
  if 0 < numNeg then
    { t with labelWeights :=
        assignSuffixL t.labelWeights (List.replicate numNeg (1:ℚ)) }
  else t

/-- The class-conditional gather used by `VRBBoxHead.loss` in the
non-class-agnostic branch:
`pred.view(N, -1, g)[pos_inds, labels[pos_inds]]` selects, for every
positive sample, the contiguous `g`-wide slice of its own class. -/
def selectPosByClass (g : Nat) (m : Mat) (labels : List ℤ)
    (mask : List Bool) : Mat :=
  (((m.zip labels).zip mask).filter fun x => x.2).map fun x =>
    (x.1.1.drop (x.1.2.toNat * g)).take g

/-- `VRBBoxHead.loss`.  The five loss callables and the accuracy metric are
external collaborators (built by `build_loss`) passed as functions; the
returned python dict is an association list in insertion order.
`reduction_override` is absorbed into the callables. -/
def lossVR (numClasses numBins : Nat) (regClassAgnostic : Bool)
    (lossCls : Mat → List ℤ → Vec → ℚ → ℚ) (accuracy : Mat → List ℤ → ℚ)
    (lossBbox lossBinCls lossBinOffset lossRatio : Mat → Mat → Mat → ℚ → ℚ)
    (clsScore bboxPred binClsPred binOffsetPred ratioPred rois : Mat)
    (labels : List ℤ) (labelWeights : Vec)
    (bboxTargets bboxWeights binClsTargets binClsWeights
     binOffsetTargets binOffsetWeights ratioTargets ratioWeights : Mat) :
    List (String × ℚ) :=
  let avgFactor : ℚ :=
    max ((labelWeights.filter fun w => 0 < w).length : ℚ) 1
  let clsLosses :=
    if 0 < numel clsScore then
      [("loss_cls", lossCls clsScore labels labelWeights avgFactor),
       ("acc", accuracy clsScore labels)]
    else []
  let posInds := labels.map fun l => decide (0 ≤ l ∧ l < (numClasses:ℤ))
  if posInds.any id then
    let posBboxPred :=
      if regClassAgnostic then maskRows bboxPred posInds
      else selectPosByClass 4 bboxPred labels posInds
    let posBinClsPred :=
      if regClassAgnostic then maskRows binClsPred posInds
      else selectPosByClass (4*numBins) binClsPred labels posInds
    let posBinOffsetPred :=
      if regClassAgnostic then maskRows binOffsetPred posInds
      else selectPosByClass 4 binOffsetPred labels posInds
    let posRatioPred :=
      if regClassAgnostic then maskRows ratioPred posInds
      else selectPosByClass 1 ratioPred labels posInds
    clsLosses ++
      [("loss_bbox",
        lossBbox posBboxPred (maskRows bboxTargets posInds)
          (maskRows bboxWeights posInds) (bboxTargets.length : ℚ)),
       ("loss_bin_cls",
        lossBinCls posBinClsPred (maskRows binClsTargets posInds)
          (maskRows binClsWeights posInds)
          ((binClsTargets.length * numBins : ℕ) : ℚ)),
       ("loss_bin_offset",
        lossBinOffset posBinOffsetPred (maskRows binOffsetTargets posInds)
          (maskRows binOffsetWeights posInds) (binOffsetTargets.length : ℚ)),
       ("loss_ratio",
        lossRatio posRatioPred (maskRows ratioTargets posInds)
          (maskRows ratioWeights posInds) (ratioTargets.length : ℚ))]
  else
    clsLosses ++
      [("loss_bbox", matSum bboxPred * 0),
       ("loss_bin_cls", matSum binClsPred * 0),
       ("loss_bin_offset", matSum binOffsetPred * 0),
       ("loss_ratio", matSum ratioPred * 0)]

/-- The bin-classification gather pipeline of `VRBBoxHead.regress_by_class`
(non-class-agnostic branch): reshape to `4*num_classes` columns, gather
columns `label*4 + {0,1,2,3}`, reshape back to `4*num_bins` columns. -/
def binClsGatherRBC (numClasses numBins : Nat) (binClsPred : Mat)
    (label : List Nat) : Option Mat := do
  let b ← view binClsPred (4*numClasses)
  let inds := label.map fun c => [4*c, 4*c+1, 4*c+2, 4*c+3]
  let g ← gather b inds
  view g (4*numBins)

/-- `VRBBoxHead.regress_by_class`.  `bboxDecode` is
`self.bbox_coder.decode(·, ·, max_shape=img_meta['img_shape'])` and
`binDecode` is `self.bin_coder.decode`; both are external coders.  In the
two ratio-selection assignments the value is `hbb2poly` of ALL decoded
boxes, exactly as in the source. -/
def regressByClass (numClasses numBins : Nat) (regClassAgnostic : Bool)
    (ratioThr : ℚ) (bboxDecode : Mat → Mat → Mat)
    (binDecode : Mat → Mat → Mat → Mat) (rois : Mat) (label : List Nat)
    (bboxPred binClsPred binOffsetPred ratioPred : Mat) : Option Mat :=
  if ¬ (size1 rois = 4 ∨ size1 rois = 5) then none
  else do
    let gathered ←
      if regClassAgnostic then
        some (bboxPred, binClsPred, binOffsetPred, ratioPred)
      else do
        let r ← gather ratioPred (label.map fun c => [c])
        let inds := label.map fun c => [4*c, 4*c+1, 4*c+2, 4*c+3]
        let bb ← gather bboxPred inds
        let bc ← binClsGatherRBC numClasses numBins binClsPred label
        let bo ← gather binOffsetPred inds
        some (bb, bc, bo, r)
    let (bboxPredG, binClsPredG, binOffsetPredG, ratioPredG) := gathered
    if ¬ (size1 bboxPredG = 4) then none
    else if ¬ (size1 binClsPredG = 4*numBins) then none
    else if ¬ (size1 binOffsetPredG = 4) then none
    else
      let ratios := ratioPredG.map fun r => r.headD 0
      let mask := ratios.map fun v => decide (ratioThr < v)
      if size1 rois = 4 then
        let bboxes := bboxDecode rois bboxPredG
        let newRois := binDecode bboxes binClsPredG binOffsetPredG
        maskedAssign newRois mask (hbb2polyM bboxes)
      else do
        let bboxes := bboxDecode (rois.map fun r => r.drop 1) bboxPredG
        let polys := binDecode bboxes binClsPredG binOffsetPredG
        let polysA ← maskedAssign polys mask (hbb2polyM bboxes)
        some ((rois.zip polysA).map fun rp => rp.1.headD 0 :: rp.2)

/-- `VRBBoxHead.get_bboxes` on the `cfg=None` path (the `cfg` branch only
forwards the result to the external `multiclass_arb_nms`).  `softmaxFn` is
`F.softmax(·, dim=1)`; the coders are external.  The 3-D views
`view(*ratio_pred.size(), 4/8)` and the 2-D boolean mask selection are
modelled at the flattened `(n*C, ·)` row granularity, which indexes the
same memory in the same order. -/
def getBboxes (ratioThr : ℚ) (softmaxFn : Mat → Mat)
    (bboxDecode : Mat → Mat → Mat) (binDecode : Mat → Mat → Mat → Mat)
    (rois clsScore bboxPred binClsPred binOffsetPred ratioPred : Mat)
    (rescale : Bool) (scaleFactor : Vec) : Option (Mat × Mat) := do
  let scores := softmaxFn clsScore
  let bboxes := bboxDecode (rois.map fun r => r.drop 1) bboxPred
  let polys := binDecode bboxes binClsPred binOffsetPred
  let bboxesV ← view bboxes 4
  let polysV ← view polys 8
  if bboxesV.length ≠ numel ratioPred then none
  else if polysV.length ≠ numel ratioPred then none
  else do
    let mask := (flat ratioPred).map fun v => decide (ratioThr < v)
    let polysA ← maskedAssign polysV mask (hbb2polyM (maskRows bboxesV mask))
    let polysR :=
      if rescale then
        polysA.map fun r =>
          List.zipWith (fun a s => a / s) r (scaleFactor ++ scaleFactor)
      else polysA
    let out ← viewRows polysR ratioPred.length
    some (out, scores)

/-- One per-image sampling result, as consumed by `get_targets`. -/
structure SamplingResult where
  posBboxes : Mat
  negBboxes : Mat
  posGtBboxes : Mat
  posGtLabels : List ℤ

/-- `VRBBoxHead.get_targets` with `concat=True`: apply the per-image
routine to every sampling result and concatenate each of the ten outputs
along the sample axis in image order. -/
def getTargets (numClasses numBins : Nat) (cfgPosWeight : ℚ)
    (bboxEncode : Mat → Mat → Mat) (hbbOf polyOf : Mat → Mat)
    (binEncode : Mat → Mat × Mat × Mat × Mat) (ratioEncode : Mat → Mat)
    (samplingResults : List SamplingResult) : Targets :=
  let singles := samplingResults.map fun r =>
    getTargetSingle numClasses numBins cfgPosWeight bboxEncode hbbOf polyOf
      binEncode ratioEncode r.posBboxes r.negBboxes r.posGtBboxes
      r.posGtLabels
  { labels := (singles.map Targets.labels).flatten
    labelWeights := (singles.map Targets.labelWeights).flatten
    bboxTargets := (singles.map Targets.bboxTargets).flatten
    bboxWeights := (singles.map Targets.bboxWeights).flatten
    binClsTargets := (singles.map Targets.binClsTargets).flatten
    binClsWeights := (singles.map Targets.binClsWeights).flatten
    binOffsetTargets := (singles.map Targets.binOffsetTargets).flatten
    binOffsetWeights := (singles.map Targets.binOffsetWeights).flatten
    ratioTargets := (singles.map Targets.ratioTargets).flatten
    ratioWeights := (singles.map Targets.ratioWeights).flatten }

abbrev VecR := List ℝ

abbrev MatR := List (List ℝ)

/-- Dot product of a weight row with an input vector. -/
noncomputable def dotR (w x : VecR) : ℝ := (List.zipWith (fun a b => a * b) w x).sum

/-- One `nn.Linear` layer applied to one input vector: `W x + b`, one
output per (weight row, bias) pair. -/
noncomputable def linearR (w : MatR) (b : VecR) (x : VecR) : VecR :=
  (w.zip b).map fun wb => dotR wb.1 x + wb.2

/-- An `nn.Linear` layer applied to a batch (one row per sample). -/
noncomputable def linearBatch (w : MatR) (b : VecR) (x : MatR) : MatR :=
  x.map (linearR w b)

/-- `torch.sigmoid`, the logistic function. -/
noncomputable def sigmoid (x : ℝ) : ℝ := 1 / (1 + Real.exp (-x))

/-- `nn.ReLU`. -/
noncomputable def relu (x : ℝ) : ℝ := max x 0

/-- A stack of fully-connected + ReLU layers (`shared_fcs_cls` /
`shared_fcs_reg`), applied to a batch. -/
noncomputable def fcTower (layers : List (MatR × VecR)) (x : MatR) : MatR :=
  layers.foldl (fun v l => (linearBatch l.1 l.2 v).map (List.map relu)) x

/-- `VRBBoxHead.affine_trans`: on EVERY call a fresh `nn.Linear` regressor
`fc_theta` is created, its weight matrix is zeroed and its bias is set to
the identity transform `[1, 0, 0, 0, 1, 0]`, and only then is it applied.
`oldW`/`oldB` stand for whatever state a previously created regressor held;
they are discarded by the re-initialization, exactly as in the source. -/
noncomputable def affineTrans (inFeatures : Nat) (oldW : MatR) (oldB : VecR)
    (feats : MatR) : MatR :=
  let w := List.replicate 6 (List.replicate inFeatures (0:ℝ))
  let b : VecR := [1, 0, 0, 0, 1, 0]
  linearBatch w b feats

/-- `VRBBoxHead.forward`.  Samples arrive flattened (`x.flatten(1)` is the
identity of this embedding); `gridSampleFn x theta` stands for
`F.grid_sample(x, F.affine_grid(theta.view(-1,2,3), x.size()))`, an
external torch op.  Outputs, in order: `cls_score`, `bbox_pred`,
`bin_cls_pred`, `bin_offset_pred` (sigmoid-squashed, shifted by `-0.5`)
and `ratio_pred` (sigmoid-squashed). -/
noncomputable def forwardVR (gridSampleFn : MatR → MatR → MatR)
    (sharedClsLayers sharedRegLayers : List (MatR × VecR))
    (fcClsW : MatR) (fcClsB : VecR) (fcRegW : MatR) (fcRegB : VecR)
    (fcBinClsW : MatR) (fcBinClsB : VecR)
    (fcBinOffsetW : MatR) (fcBinOffsetB : VecR)
    (fcRatioW : MatR) (fcRatioB : VecR)
    (inFeatures : Nat) (oldThetaW : MatR) (oldThetaB : VecR) (x : MatR) :
    MatR × MatR × MatR × MatR × MatR :=
  let theta := affineTrans inFeatures oldThetaW oldThetaB x
  let xAffine := gridSampleFn x theta
  let xForCls := fcTower sharedClsLayers xAffine
  let xForReg := fcTower sharedRegLayers x
  (linearBatch fcClsW fcClsB xForCls,
   linearBatch fcRegW fcRegB xForReg,
   linearBatch fcBinClsW fcBinClsB xForReg,
   (linearBatch fcBinOffsetW fcBinOffsetB xForReg).map
     (List.map fun t => sigmoid t - 1/2),
   (linearBatch fcRatioW fcRatioB xForReg).map (List.map sigmoid))

theorem dotR_replicate_zero (n : Nat) (x : VecR) :
    dotR (List.replicate n (0:ℝ)) x = 0 := by
  induction x generalizing n with
  | nil => cases n <;> simp [dotR]
  | cons a t ih =>
    cases n with
    | zero => simp [dotR]
    | succ m =>
      simp only [List.replicate_succ, dotR, List.zipWith_cons_cons,
        List.sum_cons, zero_mul, zero_add]
      exact ih m

theorem sigmoid_pos (x : ℝ) : 0 < sigmoid x := by
  have h : (0:ℝ) < 1 + Real.exp (-x) := by positivity
  exact div_pos one_pos h

theorem sigmoid_lt_one (x : ℝ) : sigmoid x < 1 := by
  have h : (0:ℝ) < 1 + Real.exp (-x) := by positivity
  rw [sigmoid, div_lt_one h]
  linarith [Real.exp_pos (-x)]

theorem assignPrefixL_replicate {α : Type} (upd : List α) (a : α) (n : Nat) :
    assignPrefixL (List.replicate (upd.length + n) a) upd =
      upd ++ List.replicate n a := by
  simp [assignPrefixL, List.drop_replicate]

theorem getTargetSingle_struct (numClasses numBins : Nat) (cfgPosWeight : ℚ)
    (bboxEncode : Mat → Mat → Mat) (hbbOf polyOf : Mat → Mat)
    (binEncode : Mat → Mat × Mat × Mat × Mat) (ratioEncode : Mat → Mat)
    (posBboxes negBboxes posGtBboxes : Mat) (posGtLabels : List ℤ)
    (hl : posGtLabels.length = posBboxes.length)
    (hbb : (bboxEncode posBboxes (hbbOf posGtBboxes)).length =
      posBboxes.length)
    (hb1 : (binEncode (polyOf posGtBboxes)).1.length = posBboxes.length)
    (hb2 : (binEncode (polyOf posGtBboxes)).2.1.length = posBboxes.length)
    (hb3 : (binEncode (polyOf posGtBboxes)).2.2.1.length = posBboxes.length)
    (hb4 : (binEncode (polyOf posGtBboxes)).2.2.2.length = posBboxes.length)
    (hr : (ratioEncode (polyOf posGtBboxes)).length = posBboxes.length) :
    getTargetSingle numClasses numBins cfgPosWeight bboxEncode hbbOf polyOf
        binEncode ratioEncode posBboxes negBboxes posGtBboxes posGtLabels =
      { labels :=
          posGtLabels ++ List.replicate negBboxes.length (numClasses : ℤ)
        labelWeights :=
          List.replicate posBboxes.length
              (if cfgPosWeight ≤ 0 then (1:ℚ) else cfgPosWeight) ++
            List.replicate negBboxes.length (1:ℚ)
        bboxTargets :=
          bboxEncode posBboxes (hbbOf posGtBboxes) ++
            List.replicate negBboxes.length (List.replicate 4 (0:ℚ))
        bboxWeights :=
          List.replicate posBboxes.length (List.replicate 4 (1:ℚ)) ++
            List.replicate negBboxes.length (List.replicate 4 (0:ℚ))
        binClsTargets :=
          (binEncode (polyOf posGtBboxes)).1 ++
            List.replicate negBboxes.length
              (List.replicate (4*numBins) (0:ℚ))
        binClsWeights :=
          (binEncode (polyOf posGtBboxes)).2.1 ++
            List.replicate negBboxes.length
              (List.replicate (4*numBins) (0:ℚ))
        binOffsetTargets :=
          (binEncode (polyOf posGtBboxes)).2.2.1 ++
            List.replicate negBboxes.length (List.replicate 4 (0:ℚ))
        binOffsetWeights :=
          (binEncode (polyOf posGtBboxes)).2.2.2 ++
            List.replicate negBboxes.length (List.replicate 4 (0:ℚ))
        ratioTargets :=
          ratioEncode (polyOf posGtBboxes) ++
            List.replicate negBboxes.length [(0:ℚ)]
        ratioWeights :=
          List.replicate posBboxes.length [(1:ℚ)] ++
            List.replicate negBboxes.length [(0:ℚ)] } := by
  have hrep : ∀ (k : Nat) (upd : List ℚ) (a : ℚ),
      upd.length = posBboxes.length →
      assignPrefixL (List.replicate (posBboxes.length + k) a) upd =
        upd ++ List.replicate k a := by
    intro k upd a hu
    have h := assignPrefixL_replicate upd a k
    rwa [hu] at h
  have hrepM : ∀ (k : Nat) (upd : Mat) (a : List ℚ),
      upd.length = posBboxes.length →
      assignPrefixL (List.replicate (posBboxes.length + k) a) upd =
        upd ++ List.replicate k a := by
    intro k upd a hu
    have h := assignPrefixL_replicate upd a k
    rwa [hu] at h
  have hrepZ : ∀ (k : Nat) (upd : List ℤ) (a : ℤ),
      upd.length = posBboxes.length →
      assignPrefixL (List.replicate (posBboxes.length + k) a) upd =
        upd ++ List.replicate k a := by
    intro k upd a hu
    have h := assignPrefixL_replicate upd a k
    rwa [hu] at h
  by_cases hP : 0 < posBboxes.length
  · by_cases hN : 0 < negBboxes.length
    · simp only [getTargetSingle, hP, hN, if_true, zerosM,
        Targets.mk.injEq]
      refine ⟨?_, ?_, ?_, ?_, ?_, ?_, ?_, ?_, ?_, ?_⟩
      · exact hrepZ _ _ _ hl
      · rw [hrep _ _ _ (List.length_replicate ..)]
        unfold assignSuffixL
        rw [List.length_append, List.length_replicate,
          List.length_replicate, List.length_replicate,
          Nat.add_sub_cancel, List.take_left' (List.length_replicate ..)]
      · exact hrepM _ _ _ hbb
      · exact hrepM _ _ _ (List.length_replicate ..)
      · exact hrepM _ _ _ hb1
      · exact hrepM _ _ _ hb2
      · exact hrepM _ _ _ hb3
      · exact hrepM _ _ _ hb4
      · exact hrepM _ _ _ hr
      · exact hrepM _ _ _ (List.length_replicate ..)
    · have hN0 : negBboxes.length = 0 := Nat.eq_zero_of_not_pos hN
      simp only [getTargetSingle, hP, hN, if_true, if_false, zerosM,
        Targets.mk.injEq]
      refine ⟨?_, ?_, ?_, ?_, ?_, ?_, ?_, ?_, ?_, ?_⟩
      · exact hrepZ _ _ _ hl
      · rw [hrep _ _ _ (List.length_replicate ..), hN0]
        simp
      · exact hrepM _ _ _ hbb
      · exact hrepM _ _ _ (List.length_replicate ..)
      · exact hrepM _ _ _ hb1
      · exact hrepM _ _ _ hb2
      · exact hrepM _ _ _ hb3
      · exact hrepM _ _ _ hb4
      · exact hrepM _ _ _ hr
      · exact hrepM _ _ _ (List.length_replicate ..)
  · have hP0 : posBboxes.length = 0 := Nat.eq_zero_of_not_pos hP
    have hl0 : posGtLabels = [] :=
      List.eq_nil_of_length_eq_zero (by omega)
    have hbb0 : bboxEncode posBboxes (hbbOf posGtBboxes) = [] :=
      List.eq_nil_of_length_eq_zero (by omega)
    have hb10 : (binEncode (polyOf posGtBboxes)).1 = [] :=
      List.eq_nil_of_length_eq_zero (by omega)
    have hb20 : (binEncode (polyOf posGtBboxes)).2.1 = [] :=
      List.eq_nil_of_length_eq_zero (by omega)
    have hb30 : (binEncode (polyOf posGtBboxes)).2.2.1 = [] :=
      List.eq_nil_of_length_eq_zero (by omega)
    have hb40 : (binEncode (polyOf posGtBboxes)).2.2.2 = [] :=
      List.eq_nil_of_length_eq_zero (by omega)
    have hr0 : ratioEncode (polyOf posGtBboxes) = [] :=
      List.eq_nil_of_length_eq_zero (by omega)
    by_cases hN : 0 < negBboxes.length
    · simp [getTargetSingle, hP, hN, hP0, hl0, hbb0, hb10, hb20, hb30,
        hb40, hr0, zerosM, assignSuffixL, Targets.mk.injEq,
        Nat.lt_irrefl]
    · have hN0 : negBboxes.length = 0 := Nat.eq_zero_of_not_pos hN
      simp [getTargetSingle, hP, hN, hP0, hN0, hl0, hbb0, hb10, hb20,
        hb30, hb40, hr0, zerosM, Nat.lt_irrefl]

theorem flatten_length_sum {α β : Type} (l : List α) (f : α → List β)
    (g : α → Nat) (h : ∀ a ∈ l, (f a).length = g a) :
    ((l.map f).flatten).length = (l.map g).sum := by
  induction l with
  | nil => simp
  | cons a t ih =>
    simp only [List.map_cons, List.flatten_cons, List.length_append,
      List.sum_cons, h a (List.mem_cons_self a t),
      ih fun x hx => h x (List.mem_cons_of_mem a hx)]

/-- C3: with `concat` enabled, every one of the ten tensors returned by
`get_targets` has row count equal to the sum over images of
`num_pos + num_neg`; rows appear in image order, and within each image all
positive-sample rows precede all negative-sample rows (witnessed
structurally on the label tensor — per image the matched positive labels
come first, followed by the background fill — and on the ratio-weight
tensor — per image the positive `1`-weights come first, followed by the
negative `0`-weights). -/
theorem get_targets_concat_rows (numClasses numBins : Nat)
    (cfgPosWeight : ℚ) (bboxEncode : Mat → Mat → Mat)
    (hbbOf polyOf : Mat → Mat) (binEncode : Mat → Mat × Mat × Mat × Mat)
    (ratioEncode : Mat → Mat) (samplingResults : List SamplingResult)
    (h : ∀ r ∈ samplingResults,
      r.posGtLabels.length = r.posBboxes.length ∧
      (bboxEncode r.posBboxes (hbbOf r.posGtBboxes)).length =
        r.posBboxes.length ∧
      (binEncode (polyOf r.posGtBboxes)).1.length = r.posBboxes.length ∧
      (binEncode (polyOf r.posGtBboxes)).2.1.length = r.posBboxes.length ∧
      (binEncode (polyOf r.posGtBboxes)).2.2.1.length =
        r.posBboxes.length ∧
      (binEncode (polyOf r.posGtBboxes)).2.2.2.length =
        r.posBboxes.length ∧
      (ratioEncode (polyOf r.posGtBboxes)).length = r.posBboxes.length) :
    letI t := getTargets numClasses numBins cfgPosWeight bboxEncode hbbOf
      polyOf binEncode ratioEncode samplingResults
    letI N := (samplingResults.map fun r =>
      r.posBboxes.length + r.negBboxes.length).sum
    t.labels.length = N ∧ t.labelWeights.length = N ∧
    t.bboxTargets.length = N ∧ t.bboxWeights.length = N ∧
    t.binClsTargets.length = N ∧ t.binClsWeights.length = N ∧
    t.binOffsetTargets.length = N ∧ t.binOffsetWeights.length = N ∧
    t.ratioTargets.length = N ∧ t.ratioWeights.length = N ∧
    t.labels = (samplingResults.map fun r =>
      r.posGtLabels ++
        List.replicate r.negBboxes.length (numClasses : ℤ)).flatten ∧
    t.ratioWeights = (samplingResults.map fun r =>
      List.replicate r.posBboxes.length [(1:ℚ)] ++
        List.replicate r.negBboxes.length [(0:ℚ)]).flatten := by
  have hs : ∀ r ∈ samplingResults,
      getTargetSingle numClasses numBins cfgPosWeight bboxEncode hbbOf
        polyOf binEncode ratioEncode r.posBboxes r.negBboxes r.posGtBboxes
        r.posGtLabels =
      { labels := r.posGtLabels ++
          List.replicate r.negBboxes.length (numClasses : ℤ)
        labelWeights := List.replicate r.posBboxes.length
            (if cfgPosWeight ≤ 0 then (1:ℚ) else cfgPosWeight) ++
          List.replicate r.negBboxes.length (1:ℚ)
        bboxTargets := bboxEncode r.posBboxes (hbbOf r.posGtBboxes) ++
          List.replicate r.negBboxes.length (List.replicate 4 (0:ℚ))
        bboxWeights :=
          List.replicate r.posBboxes.length (List.replicate 4 (1:ℚ)) ++
            List.replicate r.negBboxes.length (List.replicate 4 (0:ℚ))
        binClsTargets := (binEncode (polyOf r.posGtBboxes)).1 ++
          List.replicate r.negBboxes.length
            (List.replicate (4*numBins) (0:ℚ))
        binClsWeights := (binEncode (polyOf r.posGtBboxes)).2.1 ++
          List.replicate r.negBboxes.length
            (List.replicate (4*numBins) (0:ℚ))
        binOffsetTargets := (binEncode (polyOf r.posGtBboxes)).2.2.1 ++
          List.replicate r.negBboxes.length (List.replicate 4 (0:ℚ))
        binOffsetWeights := (binEncode (polyOf r.posGtBboxes)).2.2.2 ++
          List.replicate r.negBboxes.length (List.replicate 4 (0:ℚ))
        ratioTargets := ratioEncode (polyOf r.posGtBboxes) ++
          List.replicate r.negBboxes.length [(0:ℚ)]
        ratioWeights := List.replicate r.posBboxes.length [(1:ℚ)] ++
          List.replicate r.negBboxes.length [(0:ℚ)] } := by
    intro r hr
    obtain ⟨h1, h2, h3, h4, h5, h6, h7⟩ := h r hr
    exact getTargetSingle_struct numClasses numBins cfgPosWeight bboxEncode
      hbbOf polyOf binEncode ratioEncode r.posBboxes r.negBboxes
      r.posGtBboxes r.posGtLabels h1 h2 h3 h4 h5 h6 h7
  simp only [getTargets, List.map_map]
  refine ⟨?_, ?_, ?_, ?_, ?_, ?_, ?_, ?_, ?_, ?_, ?_, ?_⟩
  · refine flatten_length_sum _ _ _ fun r hr => ?_
    simp only [Function.comp_apply, hs r hr]
    simp [(h r hr).1]
  · refine flatten_length_sum _ _ _ fun r hr => ?_
    simp only [Function.comp_apply, hs r hr]
    simp
  · refine flatten_length_sum _ _ _ fun r hr => ?_
    simp only [Function.comp_apply, hs r hr]
    simp [(h r hr).2.1]
  · refine flatten_length_sum _ _ _ fun r hr => ?_
    simp only [Function.comp_apply, hs r hr]
    simp
  · refine flatten_length_sum _ _ _ fun r hr => ?_
    simp only [Function.comp_apply, hs r hr]
    simp [(h r hr).2.2.1]
  · refine flatten_length_sum _ _ _ fun r hr => ?_
    simp only [Function.comp_apply, hs r hr]
    simp [(h r hr).2.2.2.1]
  · refine flatten_length_sum _ _ _ fun r hr => ?_
    simp only [Function.comp_apply, hs r hr]
    simp [(h r hr).2.2.2.2.1]
  · refine flatten_length_sum _ _ _ fun r hr => ?_
    simp only [Function.comp_apply, hs r hr]
    simp [(h r hr).2.2.2.2.2.1]
  · refine flatten_length_sum _ _ _ fun r hr => ?_
    simp only [Function.comp_apply, hs r hr]
    simp [(h r hr).2.2.2.2.2.2]
  · refine flatten_length_sum _ _ _ fun r hr => ?_
    simp only [Function.comp_apply, hs r hr]
    simp
  · refine congrArg List.flatten (List.map_congr_left fun r hr => ?_)
    simp only [Function.comp_apply, hs r hr]
  · refine congrArg List.flatten (List.map_congr_left fun r hr => ?_)
    simp only [Function.comp_apply, hs r hr]

/-- Witness for C3: two images — one with 1 positive and 1 negative
sample, one with 0 positives and 1 negative — give 3 rows, with labels in
image order, positives before negatives. -/
theorem get_targets_concat_rows_witness :
    (∀ r ∈ [SamplingResult.mk [[0,0,1,1]] [[0,0,2,2]] [[0,0,1,1]] [0],
            SamplingResult.mk [] [[0,0,3,3]] [] []],
      r.posGtLabels.length = r.posBboxes.length ∧
      ((fun (p : Mat) (_ : Mat) => p.map fun _ => [(0:ℚ),0,0,0])
          r.posBboxes ((fun m => m) r.posGtBboxes)).length =
        r.posBboxes.length ∧
      ((fun (m : Mat) => (m.map fun _ => [(0:ℚ),0,0,0],
          m.map fun _ => [(0:ℚ),0,0,0], m.map fun _ => [(0:ℚ),0,0,0],
          m.map fun _ => [(0:ℚ),0,0,0]))
          ((fun m => m) r.posGtBboxes)).1.length = r.posBboxes.length ∧
      ((fun (m : Mat) => (m.map fun _ => [(0:ℚ),0,0,0],
          m.map fun _ => [(0:ℚ),0,0,0], m.map fun _ => [(0:ℚ),0,0,0],
          m.map fun _ => [(0:ℚ),0,0,0]))
          ((fun m => m) r.posGtBboxes)).2.1.length = r.posBboxes.length ∧
      ((fun (m : Mat) => (m.map fun _ => [(0:ℚ),0,0,0],
          m.map fun _ => [(0:ℚ),0,0,0], m.map fun _ => [(0:ℚ),0,0,0],
          m.map fun _ => [(0:ℚ),0,0,0]))
          ((fun m => m) r.posGtBboxes)).2.2.1.length =
        r.posBboxes.length ∧
      ((fun (m : Mat) => (m.map fun _ => [(0:ℚ),0,0,0],
          m.map fun _ => [(0:ℚ),0,0,0], m.map fun _ => [(0:ℚ),0,0,0],
          m.map fun _ => [(0:ℚ),0,0,0]))
          ((fun m => m) r.posGtBboxes)).2.2.2.length =
        r.posBboxes.length ∧
      ((fun (m : Mat) => m.map fun _ => [(0:ℚ)])
          ((fun m => m) r.posGtBboxes)).length = r.posBboxes.length) ∧
    (getTargets 2 1 0 (fun p _ => p.map fun _ => [(0:ℚ),0,0,0])
        (fun m => m) (fun m => m)
        (fun m => (m.map fun _ => [(0:ℚ),0,0,0],
          m.map fun _ => [(0:ℚ),0,0,0], m.map fun _ => [(0:ℚ),0,0,0],
          m.map fun _ => [(0:ℚ),0,0,0]))
        (fun m => m.map fun _ => [(0:ℚ)])
        [SamplingResult.mk [[0,0,1,1]] [[0,0,2,2]] [[0,0,1,1]] [0],
         SamplingResult.mk [] [[0,0,3,3]] [] []]).labels.length = 3 ∧
    (getTargets 2 1 0 (fun p _ => p.map fun _ => [(0:ℚ),0,0,0])
        (fun m => m) (fun m => m)
        (fun m => (m.map fun _ => [(0:ℚ),0,0,0],
          m.map fun _ => [(0:ℚ),0,0,0], m.map fun _ => [(0:ℚ),0,0,0],
          m.map fun _ => [(0:ℚ),0,0,0]))
        (fun m => m.map fun _ => [(0:ℚ)])
        [SamplingResult.mk [[0,0,1,1]] [[0,0,2,2]] [[0,0,1,1]] [0],
         SamplingResult.mk [] [[0,0,3,3]] [] []]).labels =
      [0, 2, 2] := by
  have hh := get_targets_concat_rows 2 1 0
    (fun p _ => p.map fun _ => [(0:ℚ),0,0,0]) (fun m => m) (fun m => m)
    (fun m => (m.map fun _ => [(0:ℚ),0,0,0], m.map fun _ => [(0:ℚ),0,0,0],
      m.map fun _ => [(0:ℚ),0,0,0], m.map fun _ => [(0:ℚ),0,0,0]))
    (fun m => m.map fun _ => [(0:ℚ)])
    [SamplingResult.mk [[0,0,1,1]] [[0,0,2,2]] [[0,0,1,1]] [0],
     SamplingResult.mk [] [[0,0,3,3]] [] []] (by decide)
  refine ⟨by decide, ?_, ?_⟩
  · rw [hh.1]; decide
  · rw [hh.2.2.2.2.2.2.2.2.2.2.1]; decide

/-- C4: every negative (background) sample — i.e. every row index `i` with
`num_pos ≤ i < num_pos + num_neg` — is assigned label `num_classes` (the
background class id), label weight `1`, and all-zero box,
bin-classification, bin-offset and ratio targets and weights. -/
theorem get_target_single_negative_rows (numClasses numBins : Nat)
    (cfgPosWeight : ℚ) (bboxEncode : Mat → Mat → Mat)
    (hbbOf polyOf : Mat → Mat) (binEncode : Mat → Mat × Mat × Mat × Mat)
    (ratioEncode : Mat → Mat) (posBboxes negBboxes posGtBboxes : Mat)
    (posGtLabels : List ℤ) (i : Nat)
    (hl : posGtLabels.length = posBboxes.length)
    (hbb : (bboxEncode posBboxes (hbbOf posGtBboxes)).length =
      posBboxes.length)
    (hb1 : (binEncode (polyOf posGtBboxes)).1.length = posBboxes.length)
    (hb2 : (binEncode (polyOf posGtBboxes)).2.1.length = posBboxes.length)
    (hb3 : (binEncode (polyOf posGtBboxes)).2.2.1.length =
      posBboxes.length)
    (hb4 : (binEncode (polyOf posGtBboxes)).2.2.2.length =
      posBboxes.length)
    (hr : (ratioEncode (polyOf posGtBboxes)).length = posBboxes.length)
    (hi1 : posBboxes.length ≤ i)
    (hi2 : i < posBboxes.length + negBboxes.length) :
    letI t := getTargetSingle numClasses numBins cfgPosWeight bboxEncode
      hbbOf polyOf binEncode ratioEncode posBboxes negBboxes posGtBboxes
      posGtLabels
    t.labels.getD i 0 = (numClasses : ℤ) ∧
    t.labelWeights.getD i 0 = 1 ∧
    t.bboxTargets.getD i [] = List.replicate 4 (0:ℚ) ∧
    t.bboxWeights.getD i [] = List.replicate 4 (0:ℚ) ∧
    t.binClsTargets.getD i [] = List.replicate (4*numBins) (0:ℚ) ∧
    t.binClsWeights.getD i [] = List.replicate (4*numBins) (0:ℚ) ∧
    t.binOffsetTargets.getD i [] = List.replicate 4 (0:ℚ) ∧
    t.binOffsetWeights.getD i [] = List.replicate 4 (0:ℚ) ∧
    t.ratioTargets.getD i [] = [(0:ℚ)] ∧
    t.ratioWeights.getD i [] = [(0:ℚ)] := by
  rw [getTargetSingle_struct numClasses numBins cfgPosWeight bboxEncode
    hbbOf polyOf binEncode ratioEncode posBboxes negBboxes posGtBboxes
    posGtLabels hl hbb hb1 hb2 hb3 hb4 hr]
  have hrepGet : ∀ {α : Type} (n : Nat) (a d : α) (j : Nat), j < n →
      (List.replicate n a).getD j d = a := by
    intro α n a d j hj
    simp [List.getD_eq_getElem?_getD, List.getElem?_replicate, hj]
  refine ⟨?_, ?_, ?_, ?_, ?_, ?_, ?_, ?_, ?_, ?_⟩
  · rw [List.getD_append_right _ _ _ _ (by omega)]
    exact hrepGet _ _ _ _ (by omega)
  · rw [List.getD_append_right _ _ _ _ (by simp; omega)]
    exact hrepGet _ _ _ _ (by simp; omega)
  · rw [List.getD_append_right _ _ _ _ (by omega)]
    exact hrepGet _ _ _ _ (by omega)
  · rw [List.getD_append_right _ _ _ _ (by simp; omega)]
    exact hrepGet _ _ _ _ (by simp; omega)
  · rw [List.getD_append_right _ _ _ _ (by omega)]
    exact hrepGet _ _ _ _ (by omega)
  · rw [List.getD_append_right _ _ _ _ (by omega)]
    exact hrepGet _ _ _ _ (by omega)
  · rw [List.getD_append_right _ _ _ _ (by omega)]
    exact hrepGet _ _ _ _ (by omega)
  · rw [List.getD_append_right _ _ _ _ (by omega)]
    exact hrepGet _ _ _ _ (by omega)
  · rw [List.getD_append_right _ _ _ _ (by omega)]
    exact hrepGet _ _ _ _ (by omega)
  · rw [List.getD_append_right _ _ _ _ (by simp; omega)]
    exact hrepGet _ _ _ _ (by simp; omega)

/-- Witness for C4: one positive and one negative sample; row 1 is the
negative row. -/
theorem get_target_single_negative_rows_witness :
    letI t := getTargetSingle 2 1 0 (fun p _ => p.map fun _ => [(0:ℚ),0,0,0])
      (fun m => m) (fun m => m)
      (fun m => (m.map fun _ => [(0:ℚ),0,0,0], m.map fun _ => [(0:ℚ),0,0,0],
        m.map fun _ => [(0:ℚ),0,0,0], m.map fun _ => [(0:ℚ),0,0,0]))
      (fun m => m.map fun _ => [(0:ℚ)])
      [[0,0,1,1]] [[0,0,2,2]] [[0,0,1,1]] [0]
    t.labels.getD 1 0 = (2 : ℤ) ∧
    t.labelWeights.getD 1 0 = 1 ∧
    t.bboxTargets.getD 1 [] = List.replicate 4 (0:ℚ) ∧
    t.bboxWeights.getD 1 [] = List.replicate 4 (0:ℚ) ∧
    t.binClsTargets.getD 1 [] = List.replicate (4*1) (0:ℚ) ∧
    t.binClsWeights.getD 1 [] = List.replicate (4*1) (0:ℚ) ∧
    t.binOffsetTargets.getD 1 [] = List.replicate 4 (0:ℚ) ∧
    t.binOffsetWeights.getD 1 [] = List.replicate 4 (0:ℚ) ∧
    t.ratioTargets.getD 1 [] = [(0:ℚ)] ∧
    t.ratioWeights.getD 1 [] = [(0:ℚ)] :=
  get_target_single_negative_rows 2 1 0
    (fun p _ => p.map fun _ => [(0:ℚ),0,0,0]) (fun m => m) (fun m => m)
    (fun m => (m.map fun _ => [(0:ℚ),0,0,0], m.map fun _ => [(0:ℚ),0,0,0],
      m.map fun _ => [(0:ℚ),0,0,0], m.map fun _ => [(0:ℚ),0,0,0]))
    (fun m => m.map fun _ => [(0:ℚ)])
    [[0,0,1,1]] [[0,0,2,2]] [[0,0,1,1]] [0] 1 (by decide) (by decide)
    (by decide) (by decide) (by decide) (by decide) (by decide)
    (by decide) (by decide)

/-- C9: on every call (not only at initialization), the affine-transform
matrix computed by `affine_trans` for every sample is the identity
transform `[1, 0, 0, 0, 1, 0]`, whatever state (`oldW`, `oldB`) a
previously trained regressor held and whatever the input features are:
the regressor is re-created with zeroed weights and identity bias inside
every call, so the classification-aligned warp is independent of any
training that has occurred. -/
theorem affine_trans_always_identity (inFeatures : Nat) (oldW : MatR)
    (oldB : VecR) (feats : MatR) :
    affineTrans inFeatures oldW oldB feats =
      feats.map fun _ => ([1, 0, 0, 0, 1, 0] : VecR) := by
  unfold affineTrans linearBatch
  refine List.map_congr_left fun x _ => ?_
  simp [linearR, List.replicate_succ, dotR_replicate_zero]

/-- C7: for every input batch and every parameter setting, every entry of
the `bin_offset_pred` output of `forward` lies in the open interval
`(-1/2, 1/2)` and every entry of the `ratio_pred` output lies in `(0, 1)`,
while `bbox_pred` and `bin_cls_pred` are the raw linear-layer outputs of
the regression tower with no squashing applied. -/
theorem forward_squash_ranges (gridSampleFn : MatR → MatR → MatR)
    (sharedClsLayers sharedRegLayers : List (MatR × VecR))
    (fcClsW : MatR) (fcClsB : VecR) (fcRegW : MatR) (fcRegB : VecR)
    (fcBinClsW : MatR) (fcBinClsB : VecR)
    (fcBinOffsetW : MatR) (fcBinOffsetB : VecR)
    (fcRatioW : MatR) (fcRatioB : VecR)
    (inFeatures : Nat) (oldThetaW : MatR) (oldThetaB : VecR) (x : MatR) :
    (∀ v ∈ (forwardVR gridSampleFn sharedClsLayers sharedRegLayers
        fcClsW fcClsB fcRegW fcRegB fcBinClsW fcBinClsB fcBinOffsetW
        fcBinOffsetB fcRatioW fcRatioB inFeatures oldThetaW oldThetaB
        x).2.2.2.1.flatten, -(1/2:ℝ) < v ∧ v < 1/2) ∧
    (∀ w ∈ (forwardVR gridSampleFn sharedClsLayers sharedRegLayers
        fcClsW fcClsB fcRegW fcRegB fcBinClsW fcBinClsB fcBinOffsetW
        fcBinOffsetB fcRatioW fcRatioB inFeatures oldThetaW oldThetaB
        x).2.2.2.2.flatten, (0:ℝ) < w ∧ w < 1) ∧
    (forwardVR gridSampleFn sharedClsLayers sharedRegLayers
        fcClsW fcClsB fcRegW fcRegB fcBinClsW fcBinClsB fcBinOffsetW
        fcBinOffsetB fcRatioW fcRatioB inFeatures oldThetaW oldThetaB
        x).2.1 = linearBatch fcRegW fcRegB (fcTower sharedRegLayers x) ∧
    (forwardVR gridSampleFn sharedClsLayers sharedRegLayers
        fcClsW fcClsB fcRegW fcRegB fcBinClsW fcBinClsB fcBinOffsetW
        fcBinOffsetB fcRatioW fcRatioB inFeatures oldThetaW oldThetaB
        x).2.2.1 =
      linearBatch fcBinClsW fcBinClsB (fcTower sharedRegLayers x) := by
  refine ⟨?_, ?_, rfl, rfl⟩
  · intro v hv
    simp only [forwardVR, List.mem_flatten, List.mem_map] at hv
    obtain ⟨row, ⟨r0, _, hr0⟩, hvrow⟩ := hv
    subst hr0
    obtain ⟨t, _, ht⟩ := List.mem_map.mp hvrow
    subst ht
    constructor
    · linarith [sigmoid_pos t]
    · linarith [sigmoid_lt_one t]
  · intro w hw
    simp only [forwardVR, List.mem_flatten, List.mem_map] at hw
    obtain ⟨row, ⟨r0, _, hr0⟩, hwrow⟩ := hw
    subst hr0
    obtain ⟨t, _, ht⟩ := List.mem_map.mp hwrow
    subst ht
    exact ⟨sigmoid_pos t, sigmoid_lt_one t⟩

/-- Witness for C7 at a concrete one-sample, zero-weight network. -/
theorem forward_squash_ranges_witness :
    (-(1/2:ℝ) < sigmoid 0 - 1/2 ∧ sigmoid 0 - 1/2 < 1/2) ∧
    ((0:ℝ) < sigmoid 0 ∧ sigmoid 0 < 1) := by
  have h := forward_squash_ranges (fun a _ => a) [] [] [[0]] [0] [[0]] [0]
    [[0]] [0] [[0]] [0] [[0]] [0] 1 [] [] [[0]]
  have ebo : (forwardVR (fun a _ => a) [] [] [[0]] [0] [[0]] [0] [[0]] [0]
      [[0]] [0] [[0]] [0] 1 [] [] [[0]]).2.2.2.1.flatten =
      [sigmoid 0 - 1/2] := by
    simp [forwardVR, fcTower, linearBatch, linearR, dotR]
  have erp : (forwardVR (fun a _ => a) [] [] [[0]] [0] [[0]] [0] [[0]] [0]
      [[0]] [0] [[0]] [0] 1 [] [] [[0]]).2.2.2.2.flatten = [sigmoid 0] := by
    simp [forwardVR, fcTower, linearBatch, linearR, dotR]
  refine ⟨h.1 (sigmoid 0 - 1/2) ?_, h.2.1 (sigmoid 0) ?_⟩
  · rw [ebo]; exact List.mem_singleton.mpr rfl
  · rw [erp]; exact List.mem_singleton.mpr rfl

/-- C1 (code bug): evaluation at a failing input.  With two RoIs, ratio
predictions `[2]` and `[0]` and threshold `1` (one sample above
the threshold, one below), `get_bboxes` performs the per-sample selection
(first row becomes `hbb2poly` of its own decoded box, second keeps its
bin-decoded polygon), but `regress_by_class` — which assigns `hbb2poly` of
ALL decoded boxes into the masked rows — raises a shape-mismatch error
(`none`), on a 4-column rois input as well as on a 5-column one. -/
theorem regress_by_class_ratio_mask_fails :
    getBboxes 1 (fun s => s) (fun r _ => r)
        (fun b _ _ => b.map fun row => row ++ row)
        [[0,0,0,1,1], [0,0,0,2,2]] [[1],[1]]
        [[0,0,0,0], [0,0,0,0]] [[0,0,0,0], [0,0,0,0]]
        [[0,0,0,0], [0,0,0,0]] [[2], [0]] false [] =
      some ([[0,0,1,0,1,1,0,1], [0,0,2,2,0,0,2,2]], [[1],[1]]) ∧
    regressByClass 1 1 true 1 (fun r _ => r)
        (fun b _ _ => b.map fun row => row ++ row)
        [[0,0,1,1], [0,0,2,2]] [0,0]
        [[0,0,0,0], [0,0,0,0]] [[0,0,0,0], [0,0,0,0]]
        [[0,0,0,0], [0,0,0,0]] [[2], [0]] = none ∧
    regressByClass 1 1 true 1 (fun r _ => r)
        (fun b _ _ => b.map fun row => row ++ row)
        [[0,0,0,1,1], [0,0,0,2,2]] [0,0]
        [[0,0,0,0], [0,0,0,0]] [[0,0,0,0], [0,0,0,0]]
        [[0,0,0,0], [0,0,0,0]] [[2], [0]] = none := by
  refine ⟨by decide, by decide, by decide⟩

/-- C2 (code bug): evaluation at a failing input.  With `num_classes = 2`,
`num_bins = 2`, two samples both labelled class 0 and the bin-cls
prediction rows `[0..15]` and `[16..31]`, the loss-side class-indexed
selection yields the per-sample class-0 slices `[[0..7], [16..23]]`, while
the reshape–gather–reshape pipeline of `regress_by_class` yields the single
row `[[0,1,2,3,8,9,10,11]]` — a different row count and different values,
so the two selections are not equal as functions of the prediction tensor
and label. -/
theorem regress_by_class_bin_cls_gather_mismatch :
    selectPosByClass (4*2)
        [[0,1,2,3,4,5,6,7,8,9,10,11,12,13,14,15],
         [16,17,18,19,20,21,22,23,24,25,26,27,28,29,30,31]]
        [0, 0] [true, true] =
      [[0,1,2,3,4,5,6,7], [16,17,18,19,20,21,22,23]] ∧
    binClsGatherRBC 2 2
        [[0,1,2,3,4,5,6,7,8,9,10,11,12,13,14,15],
         [16,17,18,19,20,21,22,23,24,25,26,27,28,29,30,31]]
        [0, 0] = some [[0,1,2,3,8,9,10,11]] ∧
    binClsGatherRBC 2 2
        [[0,1,2,3,4,5,6,7,8,9,10,11,12,13,14,15],
         [16,17,18,19,20,21,22,23,24,25,26,27,28,29,30,31]]
        [0, 0] ≠
      some (selectPosByClass (4*2)
        [[0,1,2,3,4,5,6,7,8,9,10,11,12,13,14,15],
         [16,17,18,19,20,21,22,23,24,25,26,27,28,29,30,31]]
        [0, 0] [true, true]) := by
  refine ⟨rfl, rfl, ?_⟩
  decide

/-- C5: an image with zero positive and zero negative samples is assigned
without failure, and every output tensor is the zero-row tensor of its
shape (`(0,)` labels and label weights, `(0,4)` box targets/weights,
`(0,4*num_bins)` bin-cls targets/weights, `(0,4)` bin-offset
targets/weights, `(0,1)` ratio targets/weights). -/
theorem get_target_single_empty (numClasses numBins : Nat)
    (cfgPosWeight : ℚ) (bboxEncode : Mat → Mat → Mat)
    (hbbOf polyOf : Mat → Mat) (binEncode : Mat → Mat × Mat × Mat × Mat)
    (ratioEncode : Mat → Mat) (posGtBboxes : Mat) (posGtLabels : List ℤ) :
    getTargetSingle numClasses numBins cfgPosWeight bboxEncode hbbOf polyOf
        binEncode ratioEncode [] [] posGtBboxes posGtLabels =
      { labels := List.replicate 0 (numClasses : ℤ)
        labelWeights := List.replicate 0 (0:ℚ)
        bboxTargets := zerosM 0 4
        bboxWeights := zerosM 0 4
        binClsTargets := zerosM 0 (4*numBins)
        binClsWeights := zerosM 0 (4*numBins)
        binOffsetTargets := zerosM 0 4
        binOffsetWeights := zerosM 0 4
        ratioTargets := zerosM 0 1
        ratioWeights := zerosM 0 1 } := rfl

/-- C8: `regress_by_class` fails on its eager precondition check (`none`)
for every rois input whose column count is neither 4 nor 5, whatever the
other arguments are, and never produces a result for such an input. -/
theorem regress_by_class_bad_rois_width (numClasses numBins : Nat)
    (regClassAgnostic : Bool) (ratioThr : ℚ) (bboxDecode : Mat → Mat → Mat)
    (binDecode : Mat → Mat → Mat → Mat) (rois : Mat) (label : List Nat)
    (bboxPred binClsPred binOffsetPred ratioPred : Mat)
    (h4 : size1 rois ≠ 4) (h5 : size1 rois ≠ 5) :
    regressByClass numClasses numBins regClassAgnostic ratioThr bboxDecode
      binDecode rois label bboxPred binClsPred binOffsetPred ratioPred =
      none := by
  simp [regressByClass, h4, h5]

/-- Witness for C8 at a concrete 3-column rois input. -/
theorem regress_by_class_bad_rois_width_witness :
    size1 [[(0:ℚ), 0, 0]] ≠ 4 ∧ size1 [[(0:ℚ), 0, 0]] ≠ 5 ∧
    regressByClass 1 1 true 1 (fun r _ => r) (fun b _ _ => b)
      [[(0:ℚ), 0, 0]] [0] [[0,0,0,0]] [[0,0,0,0]] [[0,0,0,0]] [[1]] =
      none :=
  ⟨by decide, by decide,
   regress_by_class_bad_rois_width 1 1 true 1 (fun r _ => r)
     (fun b _ _ => b) [[(0:ℚ), 0, 0]] [0] [[0,0,0,0]] [[0,0,0,0]]
     [[0,0,0,0]] [[1]] (by decide) (by decide)⟩

/-- C6: when no label lies in `[0, num_classes)` (no positive samples),
`loss` returns, for each of the box, bin-classification, bin-offset and
ratio losses, the sum of the corresponding full prediction tensor
multiplied by zero — a reduction of that prediction tensor, of value 0 —
and the call produces its result without error. -/
theorem loss_no_positive_labels (numClasses numBins : Nat)
    (regClassAgnostic : Bool) (lossCls : Mat → List ℤ → Vec → ℚ → ℚ)
    (accuracy : Mat → List ℤ → ℚ)
    (lossBbox lossBinCls lossBinOffset lossRatio : Mat → Mat → Mat → ℚ → ℚ)
    (clsScore bboxPred binClsPred binOffsetPred ratioPred rois : Mat)
    (labels : List ℤ) (labelWeights : Vec)
    (bboxTargets bboxWeights binClsTargets binClsWeights
     binOffsetTargets binOffsetWeights ratioTargets ratioWeights : Mat)
    (h : ∀ l ∈ labels, ¬(0 ≤ l ∧ l < (numClasses : ℤ))) :
    letI d := lossVR numClasses numBins regClassAgnostic lossCls accuracy
      lossBbox lossBinCls lossBinOffset lossRatio clsScore bboxPred
      binClsPred binOffsetPred ratioPred rois labels labelWeights
      bboxTargets bboxWeights binClsTargets binClsWeights binOffsetTargets
      binOffsetWeights ratioTargets ratioWeights
    d.lookup "loss_bbox" = some (matSum bboxPred * 0) ∧
    d.lookup "loss_bin_cls" = some (matSum binClsPred * 0) ∧
    d.lookup "loss_bin_offset" = some (matSum binOffsetPred * 0) ∧
    d.lookup "loss_ratio" = some (matSum ratioPred * 0) ∧
    d.lookup "loss_bbox" = some 0 ∧
    d.lookup "loss_bin_cls" = some 0 ∧
    d.lookup "loss_bin_offset" = some 0 ∧
    d.lookup "loss_ratio" = some 0 := by
  have hany : (labels.map fun l =>
      decide (0 ≤ l ∧ l < (numClasses : ℤ))).any id = false := by
    rw [List.any_eq_false]
    intro b hb
    simp only [List.mem_map] at hb
    obtain ⟨l, hl, rfl⟩ := hb
    simpa using h l hl
  simp only [lossVR, hany, Bool.false_eq_true, if_false]
  by_cases hc : 0 < numel clsScore <;>
    simp [hc, List.lookup, mul_zero]

/-- Witness for C6: a single background-labelled sample. -/
theorem loss_no_positive_labels_witness :
    (∀ l ∈ ([1] : List ℤ), ¬(0 ≤ l ∧ l < (1 : ℤ))) ∧
    letI d := lossVR 1 1 false (fun _ _ _ _ => 0) (fun _ _ => 0)
      (fun _ _ _ _ => 0) (fun _ _ _ _ => 0) (fun _ _ _ _ => 0)
      (fun _ _ _ _ => 0) [[2]] [[3]] [[4]] [[5]] [[6]] [[0,0,0,0,0]]
      [1] [1] [[0,0,0,0]] [[0,0,0,0]] [[0,0,0,0]] [[0,0,0,0]]
      [[0,0,0,0]] [[0,0,0,0]] [[0]] [[0]]
    d.lookup "loss_bbox" = some (matSum [[3]] * 0) ∧
    d.lookup "loss_bin_cls" = some (matSum [[4]] * 0) ∧
    d.lookup "loss_bin_offset" = some (matSum [[5]] * 0) ∧
    d.lookup "loss_ratio" = some (matSum [[6]] * 0) ∧
    d.lookup "loss_bbox" = some 0 ∧
    d.lookup "loss_bin_cls" = some 0 ∧
    d.lookup "loss_bin_offset" = some 0 ∧
    d.lookup "loss_ratio" = some 0 :=
  ⟨by decide,
   loss_no_positive_labels 1 1 false (fun _ _ _ _ => 0) (fun _ _ => 0)
     (fun _ _ _ _ => 0) (fun _ _ _ _ => 0) (fun _ _ _ _ => 0)
     (fun _ _ _ _ => 0) [[2]] [[3]] [[4]] [[5]] [[6]] [[0,0,0,0,0]]
     [1] [1] [[0,0,0,0]] [[0,0,0,0]] [[0,0,0,0]] [[0,0,0,0]]
     [[0,0,0,0]] [[0,0,0,0]] [[0]] [[0]] (by decide)⟩

/-- C10: when the classification-score tensor passed to `loss` has zero
elements, the returned mapping has no `loss_cls` entry and no `acc` entry,
while the four regression-loss entries are all present. -/
theorem loss_empty_cls_score_keys (numClasses numBins : Nat)
    (regClassAgnostic : Bool) (lossCls : Mat → List ℤ → Vec → ℚ → ℚ)
    (accuracy : Mat → List ℤ → ℚ)
    (lossBbox lossBinCls lossBinOffset lossRatio : Mat → Mat → Mat → ℚ → ℚ)
    (clsScore bboxPred binClsPred binOffsetPred ratioPred rois : Mat)
    (labels : List ℤ) (labelWeights : Vec)
    (bboxTargets bboxWeights binClsTargets binClsWeights
     binOffsetTargets binOffsetWeights ratioTargets ratioWeights : Mat)
    (h : numel clsScore = 0) :
    letI keys := (lossVR numClasses numBins regClassAgnostic lossCls
      accuracy lossBbox lossBinCls lossBinOffset lossRatio clsScore
      bboxPred binClsPred binOffsetPred ratioPred rois labels labelWeights
      bboxTargets bboxWeights binClsTargets binClsWeights binOffsetTargets
      binOffsetWeights ratioTargets ratioWeights).map Prod.fst
    "loss_cls" ∉ keys ∧ "acc" ∉ keys ∧ "loss_bbox" ∈ keys ∧
    "loss_bin_cls" ∈ keys ∧ "loss_bin_offset" ∈ keys ∧
    "loss_ratio" ∈ keys := by
  simp only [lossVR, h, Nat.lt_irrefl, if_false, List.nil_append]
  by_cases hp : ((labels.map fun l =>
      decide (0 ≤ l ∧ l < (numClasses : ℤ))).any id) = true
  · rw [if_pos hp]
    simp
  · rw [if_neg hp]
    simp

/-- Witness for C10: an empty classification-score tensor. -/
theorem loss_empty_cls_score_keys_witness :
    numel [] = 0 ∧
    letI keys := (lossVR 1 1 false (fun _ _ _ _ => 0) (fun _ _ => 0)
      (fun _ _ _ _ => 0) (fun _ _ _ _ => 0) (fun _ _ _ _ => 0)
      (fun _ _ _ _ => 0) [] [[3]] [[4]] [[5]] [[6]] [[0,0,0,0,0]]
      [1] [1] [[0,0,0,0]] [[0,0,0,0]] [[0,0,0,0]] [[0,0,0,0]]
      [[0,0,0,0]] [[0,0,0,0]] [[0]] [[0]]).map Prod.fst
    "loss_cls" ∉ keys ∧ "acc" ∉ keys ∧ "loss_bbox" ∈ keys ∧
    "loss_bin_cls" ∈ keys ∧ "loss_bin_offset" ∈ keys ∧
    "loss_ratio" ∈ keys :=
  ⟨rfl,
   loss_empty_cls_score_keys 1 1 false (fun _ _ _ _ => 0) (fun _ _ => 0)
     (fun _ _ _ _ => 0) (fun _ _ _ _ => 0) (fun _ _ _ _ => 0)
     (fun _ _ _ _ => 0) [] [[3]] [[4]] [[5]] [[6]] [[0,0,0,0,0]]
     [1] [1] [[0,0,0,0]] [[0,0,0,0]] [[0,0,0,0]] [[0,0,0,0]]
     [[0,0,0,0]] [[0,0,0,0]] [[0]] [[0]] rfl⟩

end VR
